import Mathlib

/-!
Verification development for the openwhisk-newrelic metrics agent.

The JavaScript source is shallowly embedded:
- `lib/metrics.js` (`truncateString`, `toMetricsObject`, `flatten`,
  `timeUntilTimeout`) as pure functions over a `JsValue` model; a thrown
  exception is modelled with `Except`.
- `lib/queue.js` (the shared send queue: `start`, `stop`, `send`,
  `sendQueue`) as explicit state passing over `SendQueueState`.
- `lib/newrelic.js` (`NewRelic.send`, `sendMetricsOnActionTimeout`,
  `activationFinished`) as object-merge functions and a small step
  machine for the deadline timer.
- `lib/probe/http-client.js` (`ignoreRequest`, `triggerMetrics`) as a
  step machine over request lifecycle events.
-/

namespace Openwhisk

/-- Model of a JavaScript value, as far as the metrics library inspects
them: numbers (JS doubles restricted to the rationals), strings,
booleans, bigints, `null`, `undefined`, functions and symbols (only
their `typeof` matters to `flatten`), plain objects (ordered own
enumerable string-keyed entries), `Map`s, arrays, `Set`s (their distinct
elements in insertion order, as produced by `Array.from`), and `Error`
objects (own enumerable properties plus the non-enumerable `code`,
`message` and `name` read explicitly by `toMetricsObject`). -/
inductive JsValue where
  | num (q : ℚ)
  | str (s : String)
  | bool (b : Bool)
  | bigint (i : Int)
  | null
  | undefined
  | func (name : String)
  | symbol (descr : String)
  | obj (fields : List (String × JsValue))
  | map (entries : List (JsValue × JsValue))
  | arr (elems : List JsValue)
  | set (elems : List JsValue)
  | error (ownProps : List (String × JsValue)) (code : JsValue)
      (message : String) (name : String)
deriving Repr

/-- A flattened metric value: New Relic only accepts numbers and strings. -/
inductive FlatValue where
  | num (q : ℚ)
  | str (s : String)
deriving Repr, DecidableEq

mutual

/-- Size of a `JsValue`, used as the termination measure of `flatten`.
The `error` constructor is weighted so that the object built by the
`toMetricsObject` error branch is smaller than the error itself. -/
def vsize : JsValue → Nat
  | .obj fields => 1 + psize fields
  | .map entries => 1 + esize entries
  | .arr xs => 1 + lsize xs
  | .set xs => 1 + lsize xs
  | .error props code _ _ => 7 + psize props + vsize code
  | _ => 0

/-- Size of an object field list. -/
def psize : List (String × JsValue) → Nat
  | [] => 0
  | (_, v) :: rest => 1 + vsize v + psize rest

/-- Size of a `Map` entry list. -/
def esize : List (JsValue × JsValue) → Nat
  | [] => 0
  | (k, v) :: rest => 1 + vsize k + vsize v + esize rest

/-- Size of an array element list. -/
def lsize : List JsValue → Nat
  | [] => 0
  | v :: rest => 1 + vsize v + lsize rest

end

/-- JavaScript object property assignment `result[key] = value` on an
ordered association list: overwrite the value of an existing key in
place (JS objects keep the original insertion position of an updated
key), otherwise append the new key at the end. -/
def jsUpsert {α : Type} : List (String × α) → String → α → List (String × α)
  | [], k, v => [(k, v)]
  | (k', v') :: rest, k, v =>
      if k' = k then (k, v) :: rest else (k', v') :: jsUpsert rest k v

/-- Maximum string length for metric values, `DEFAULT_MAX_STRING_LENGTH`
in `lib/metrics.js`. -/
def DEFAULT_MAX_STRING_LENGTH : Nat := 100

/-- Maximum string length for error metric values,
`DEFAULT_ERROR_METRIC_MAX_STRING_LENGTH` in `lib/metrics.js`, with the
`NEW_RELIC_ERROR_METRIC_MAX_STRING_LENGTH` environment variable unset. -/
def DEFAULT_ERROR_METRIC_MAX_STRING_LENGTH : Nat := 1500

/-- The keys that get the larger error string limit,
`ERROR_METRIC_NAMES` in `lib/metrics.js`. -/
def ERROR_METRIC_NAMES : List String := ["message", "errorMessage", "error"]

/-- The string length limit `flatten` applies to the value at `key`. -/
def limitForKey (key : String) : Nat :=
  if key ∈ ERROR_METRIC_NAMES then DEFAULT_ERROR_METRIC_MAX_STRING_LENGTH
  else DEFAULT_MAX_STRING_LENGTH

/-- `truncateString(str, maxLength)` from `lib/metrics.js`:
`str.length > maxLength ? str.substring(0, maxLength - 3) + "..." : str`. -/
def truncateString (s : String) (maxLength : Nat) : String :=
  if maxLength < s.length then String.mk (s.data.take (maxLength - 3)) ++ "..."
  else s

/-- The `Map` branch of `toMetricsObject` calls `truncateString` on every
value, string or not. In JavaScript `value.length` is `undefined` for
values without a `length` property, so the comparison is false and the
value is returned unchanged; an `undefined` value triggers the `str = ""`
default parameter; a `null` value throws reading `null.length`; an array
longer than the limit throws because arrays have no `substring`. -/
def truncValue (v : JsValue) (maxLength : Nat) : Except String JsValue :=
  match v with
  | .str s => .ok (.str (truncateString s maxLength))
  | .arr xs =>
      if maxLength < xs.length then
        .error "str.substring is not a function"
      else .ok (.arr xs)
  | .null => .error "Cannot read properties of null (reading length)"
  | .undefined => .ok (.str "")
  | v => .ok v

/-- The `Map` branch of `toMetricsObject` in `lib/metrics.js`: keep the
string-keyed entries in iteration order, truncating each value with the
error limit for keys in `ERROR_METRIC_NAMES` and the default limit
otherwise; non-string keys are dropped. -/
def mapEntriesToObject :
    List (JsValue × JsValue) → List (String × JsValue) →
    Except String (List (String × JsValue))
  | [], acc => .ok acc
  | (k, v) :: rest, acc =>
      match k with
      | .str key =>
          match truncValue v (limitForKey key) with
          | .error e => .error e
          | .ok tv => mapEntriesToObject rest (jsUpsert acc key tv)
      | _ => mapEntriesToObject rest acc

/-- `Number.isInteger` on a model value. -/
def isIntegerValue : JsValue → Bool
  | .num q => q.den == 1
  | _ => false

/-- The numeric content of a value (only applied to `num` values, inside
the all-integers array branch). -/
def numValue : JsValue → ℚ
  | .num q => q
  | _ => 0

/-- `obj.reduce((prev, curr) => prev + curr)` as called by
`toMetricsObject`: JavaScript `reduce` with no initial value throws a
`TypeError` on an empty array. -/
def reduceSum (xs : List JsValue) : Except String ℚ :=
  match xs with
  | [] => .error "Reduce of empty array with no initial value"
  | first :: rest => .ok (rest.foldl (fun acc v => acc + numValue v) (numValue first))

/-- The array (and, via `Array.from`, the `Set`) branch of
`toMetricsObject`: an all-integer array collapses to `{mean: average}`
(note `[].every(Number.isInteger)` is vacuously true, so an empty array
takes this branch and the `reduce` call throws); any other array
collapses to `{item: first}`. -/
def arrayToMetricsObject (xs : List JsValue) : Except String JsValue :=
  if xs.all isIntegerValue then
    match reduceSum xs with
    | .error e => .error e
    | .ok s => .ok (.obj [("mean", .num (s / (xs.length : ℚ)))])
  else .ok (.obj [("item", xs.headD .undefined)])

/-- `toMetricsObject(obj)` from `lib/metrics.js`: errors become
`{...obj, code, message, name}`, `Map`s become string-keyed objects with
truncated values, arrays and `Set`s collapse to `{mean}` or `{item}`,
and everything else is returned as is. -/
def toMetricsObject (v : JsValue) : Except String JsValue :=
  match v with
  | .error props code message name =>
      .ok (.obj (jsUpsert (jsUpsert (jsUpsert props "code" code)
        "message" (.str message)) "name" (.str name)))
  | .map entries =>
      match mapEntriesToObject entries [] with
      | .error e => .error e
      | .ok fields => .ok (.obj fields)
  | .arr xs => arrayToMetricsObject xs
  | .set xs => arrayToMetricsObject xs
  | v => .ok v

/-- The field list of an object value (`Object.entries`); `[]` for
non-objects. -/
def objFields : JsValue → List (String × JsValue)
  | .obj fields => fields
  | _ => []

theorem psize_jsUpsert (r : List (String × JsValue)) (k : String) (v : JsValue) :
    psize (jsUpsert r k v) ≤ psize r + 1 + vsize v := by
  induction r with
  | nil => simp [jsUpsert, psize]
  | cons hd tl ih =>
      obtain ⟨k', v'⟩ := hd
      by_cases h : k' = k
      · simp [jsUpsert, h, psize]; omega
      · simp only [jsUpsert, h, if_false, psize]; omega

theorem truncValue_vsize {v tv : JsValue} {m : Nat}
    (h : truncValue v m = .ok tv) : vsize tv ≤ vsize v := by
  cases v
  case str s =>
    simp only [truncValue, Except.ok.injEq] at h
    subst h; simp [vsize]
  case arr xs =>
    simp only [truncValue] at h
    split at h
    · exact absurd h (by simp)
    · simp only [Except.ok.injEq] at h; subst h; exact Nat.le_refl _
  case null => exact absurd h (by simp [truncValue])
  case undefined =>
    simp only [truncValue, Except.ok.injEq] at h
    subst h; simp [vsize]
  all_goals
    simp only [truncValue, Except.ok.injEq] at h
  all_goals subst h
  all_goals exact Nat.le_refl _

theorem mapEntriesToObject_psize :
    ∀ (es : List (JsValue × JsValue)) (acc r : List (String × JsValue)),
    mapEntriesToObject es acc = .ok r → psize r ≤ psize acc + esize es := by
  intro es
  induction es with
  | nil => intro acc r h; simp [mapEntriesToObject] at h; subst h; simp [esize]
  | cons hd tl ih =>
      intro acc r h
      obtain ⟨k, v⟩ := hd
      cases k <;> simp only [mapEntriesToObject] at h
      -- all non-string keys are skipped
      case str key =>
        cases htv : truncValue v (limitForKey key) with
        | error e => rw [htv] at h; exact absurd h (by simp)
        | ok tv =>
            rw [htv] at h
            have h1 := ih _ _ h
            have h2 := psize_jsUpsert acc key tv
            have h3 := truncValue_vsize htv
            simp [esize]; omega
      all_goals
        have h1 := ih _ _ h
        simp [esize] at h1 ⊢
        omega

theorem toMetricsObject_psize :
    ∀ {v m : JsValue}, toMetricsObject v = .ok m → psize (objFields m) ≤ vsize v := by
  intro v m h
  cases v
  case error props code message name =>
    simp only [toMetricsObject, Except.ok.injEq] at h
    subst h
    have h1 := psize_jsUpsert props "code" code
    have h2 := psize_jsUpsert (jsUpsert props "code" code) "message" (JsValue.str message)
    have h3 := psize_jsUpsert (jsUpsert (jsUpsert props "code" code) "message"
      (JsValue.str message)) "name" (JsValue.str name)
    simp only [objFields, vsize] at *
    omega
  case map entries =>
    simp only [toMetricsObject] at h
    cases hm : mapEntriesToObject entries [] with
    | error e => rw [hm] at h; exact absurd h (by simp)
    | ok fields =>
        rw [hm] at h
        simp only [Except.ok.injEq] at h
        subst h
        have := mapEntriesToObject_psize entries [] fields hm
        simp only [objFields, vsize, psize] at *
        omega
  case arr xs =>
    simp only [toMetricsObject, arrayToMetricsObject] at h
    split at h
    · cases hs : reduceSum xs with
      | error e => rw [hs] at h; exact absurd h (by simp)
      | ok s =>
          rw [hs] at h
          simp only [Except.ok.injEq] at h
          subst h
          cases xs with
          | nil => simp [reduceSum] at hs
          | cons x tl => simp only [objFields, psize, vsize, lsize]; omega
    · simp only [Except.ok.injEq] at h
      subst h
      cases xs with
      | nil => simp only [objFields, psize, vsize, lsize, List.headD_nil]; omega
      | cons x tl => simp only [objFields, psize, vsize, lsize, List.headD_cons]; omega
  case set xs =>
    simp only [toMetricsObject, arrayToMetricsObject] at h
    split at h
    · cases hs : reduceSum xs with
      | error e => rw [hs] at h; exact absurd h (by simp)
      | ok s =>
          rw [hs] at h
          simp only [Except.ok.injEq] at h
          subst h
          cases xs with
          | nil => simp [reduceSum] at hs
          | cons x tl => simp only [objFields, psize, vsize, lsize]; omega
    · simp only [Except.ok.injEq] at h
      subst h
      cases xs with
      | nil => simp only [objFields, psize, vsize, lsize, List.headD_nil]; omega
      | cons x tl => simp only [objFields, psize, vsize, lsize, List.headD_cons]; omega
  case obj fields =>
    simp only [toMetricsObject, Except.ok.injEq] at h
    subst h
    simp only [objFields, vsize]
    omega
  all_goals
    simp only [toMetricsObject, Except.ok.injEq] at h
  all_goals subst h
  all_goals simp [objFields, vsize, psize]

/-- `Object.assign(result, other)`: assign each entry of `other` into
`result` in order. -/
def objAssignAll (result other : List (String × FlatValue)) :
    List (String × FlatValue) :=
  other.foldl (fun acc kv => jsUpsert acc kv.1 kv.2) result

/-- The body of `flatten(metrics, parentKey)` from `lib/metrics.js`,
with the `result` accumulator made explicit. For each entry in order:
strings are truncated (with the larger limit when the bare key is in
`ERROR_METRIC_NAMES`) and recorded under `parentKey + key`; numbers are
recorded as is; booleans become `1`/`0`; bigints become strings; `null`
and `undefined` are skipped; other objects go through `toMetricsObject`
and are flattened recursively under the prefix `parentKey + key + "_"`,
the nested result being assigned into `result`; functions and symbols
throw. -/
def flattenInto :
    List (String × JsValue) → String → List (String × FlatValue) →
    Except String (List (String × FlatValue))
  | [], _, result => .ok result
  | (key, value) :: rest, parentKey, result =>
    match value with
    | .str s =>
        flattenInto rest parentKey
          (jsUpsert result (parentKey ++ key) (.str (truncateString s (limitForKey key))))
    | .num q =>
        flattenInto rest parentKey (jsUpsert result (parentKey ++ key) (.num q))
    | .bool b =>
        flattenInto rest parentKey
          (jsUpsert result (parentKey ++ key) (.num (if b then 1 else 0)))
    | .bigint i =>
        flattenInto rest parentKey (jsUpsert result (parentKey ++ key) (.str (toString i)))
    | .null => flattenInto rest parentKey result
    | .undefined => flattenInto rest parentKey result
    | .func _ => .error ("Unsupported property: " ++ key)
    | .symbol _ => .error ("Unsupported property: " ++ key)
    | other =>
      match hm : toMetricsObject other with
      | .error e => .error e
      | .ok m =>
        match flattenInto (objFields m) (parentKey ++ key ++ "_") [] with
        | .error e => .error e
        | .ok nested => flattenInto rest parentKey (objAssignAll result nested)
termination_by l _ _ => psize l
decreasing_by
  all_goals simp [psize]
  all_goals
    have := toMetricsObject_psize hm
    simp [vsize] at this ⊢
    omega

/-- `flatten(metrics)` from `lib/metrics.js` (top-level call, where
`parentKey` defaults to `""` and `result` starts empty). -/
def flatten (metrics : List (String × JsValue)) (parentKey : String) :
    Except String (List (String × FlatValue)) :=
  flattenInto metrics parentKey []

/-! ## The shared send queue (`lib/queue.js`) -/

/-- A metric event as enqueued: a JavaScript object. -/
abbrev MetricsObj := List (String × JsValue)

/-- `MAX_EVENTS` from `lib/queue.js`: at most 50 events per POST. -/
def MAX_EVENTS : Nat := 50

/-- `DEFAULT_SEND_INTERVAL_MS` from `lib/queue.js`. -/
def DEFAULT_SEND_INTERVAL_MS : Nat := 10000

/-- The module state of `lib/queue.js`: the `endpoint` record
(`url`, `apiKey`), the interval timer id `sendTimer` (modelled by the
interval it was started with) and the `queue` array. -/
structure SendQueueState where
  url : Option String
  apiKey : Option String
  sendTimer : Option Nat
  queue : List MetricsObj

/-- The module state before any `start`: endpoint fields `undefined`,
no timer, empty queue. -/
def initialSendQueueState : SendQueueState :=
  { url := none, apiKey := none, sendTimer := none, queue := [] }

/-- JavaScript `a || b` on optional numbers: `undefined` and `0` are
falsy. -/
def jsOrNat : Option Nat → Option Nat → Option Nat
  | some n, b => if n = 0 then b else some n
  | none, b => b

/-- `start(url, apiKey, sendInterval)` from `lib/queue.js`: always
overwrite `endpoint.url` and `endpoint.apiKey`; start the interval
timer only if none is running, at
`sendInterval || process.env.NEW_RELIC_SEND_INTERVAL_MS || DEFAULT_SEND_INTERVAL_MS`
(the environment override is passed in as `envInterval`). -/
def sendQueueStart (s : SendQueueState) (url apiKey : String)
    (sendInterval envInterval : Option Nat) : SendQueueState :=
  let s1 := { s with url := some url, apiKey := some apiKey }
  match s1.sendTimer with
  | some _ => s1
  | none =>
      let interval :=
        (jsOrNat (jsOrNat sendInterval envInterval) (some DEFAULT_SEND_INTERVAL_MS)).getD
          DEFAULT_SEND_INTERVAL_MS
      { s1 with sendTimer := some interval }

/-- `stop()` from `lib/queue.js`: only if a timer is running, log and
drop any queued events and clear the timer; otherwise do nothing at
all. Returns the new state and the logged drop count (`none` when
nothing was logged). -/
def sendQueueStop (s : SendQueueState) : SendQueueState × Option Nat :=
  match s.sendTimer with
  | some _ =>
      ({ s with queue := [], sendTimer := none },
        if 0 < s.queue.length then some s.queue.length else none)
  | none => (s, none)

/-- `send(metrics, immediately)` from `lib/queue.js`: push onto the
queue (the `immediately` flush is modelled separately by
`sendQueueRound`). -/
def sendQueueSend (s : SendQueueState) (metrics : MetricsObj) : SendQueueState :=
  { s with queue := s.queue ++ [metrics] }

/-- The outcome of one `sendQueue()` run from `lib/queue.js`: the batch
shipped in a single POST, the queue left behind by the
`queue.splice(0, MAX_EVENTS)`, and whether `setImmediate(sendQueue)`
rescheduled another run. -/
structure FlushStep where
  batch : List MetricsObj
  remaining : List MetricsObj
  rescheduled : Bool

/-- One run of `sendQueue()`: return immediately on an empty queue;
otherwise splice the first `MAX_EVENTS` events off the head as the POST
batch and reschedule if events remain. -/
def sendQueueRound (queue : List MetricsObj) : FlushStep :=
  if queue.isEmpty then ⟨[], queue, false⟩
  else
    ⟨queue.take MAX_EVENTS, queue.drop MAX_EVENTS,
      !(queue.drop MAX_EVENTS).isEmpty⟩

/-- The gzipped POST body of one batch: `batch.map(m => Metrics.flatten(m))`. -/
def postBody (batch : List MetricsObj) : List (Except String (List (String × FlatValue))) :=
  batch.map (fun m => flatten m "")

/-- The sequence of POST batches produced by a `sendQueue()` run and
the chain of `setImmediate(sendQueue)` reruns it schedules, until the
queue drains. -/
def flushPosts (queue : List MetricsObj) : List (List MetricsObj) :=
  if h : queue.isEmpty then []
  else
    (sendQueueRound queue).batch ::
      (if (sendQueueRound queue).rescheduled then
        flushPosts (sendQueueRound queue).remaining
      else [])
termination_by queue.length
decreasing_by
  have hq : 0 < queue.length := by
    cases queue with
    | nil => exact absurd rfl h
    | cons x tl => simp
  unfold sendQueueRound
  rw [if_neg h]
  simp only [List.length_drop, MAX_EVENTS]
  omega

/-! ## The agent (`lib/newrelic.js`) -/

/-- JavaScript object spread `{...base, ...updates}`: assign each entry
of `updates` into `base` in order; an entry for an existing key
overwrites its value in place, a new key is appended. -/
def spreadInto (base updates : MetricsObj) : MetricsObj :=
  updates.foldl (fun acc kv => jsUpsert acc kv.1 kv.2) base

/-- The event object built by `NewRelic.send(eventType, metrics, immediately)`
in `lib/newrelic.js`:
`{eventType, timestamp: Metrics.timestamp(), ...this.defaultMetrics, ...metrics}`. -/
def newRelicSendEvent (defaultMetrics : MetricsObj) (eventType : String)
    (now : ℚ) (metrics : MetricsObj) : MetricsObj :=
  spreadInto
    (spreadInto [("eventType", JsValue.str eventType), ("timestamp", JsValue.num now)]
      defaultMetrics)
    metrics

/-- `NewRelic.send` forwards the built event to `sendQueue.send` when
metrics are enabled, and only logs otherwise. -/
def newRelicSend (canSendMetrics : Bool) (defaultMetrics : MetricsObj)
    (q : SendQueueState) (eventType : String) (now : ℚ) (metrics : MetricsObj) :
    SendQueueState :=
  if canSendMetrics then sendQueueSend q (newRelicSendEvent defaultMetrics eventType now metrics)
  else q

/-- The event sent by the deadline handler armed by
`sendMetricsOnActionTimeout`: the metrics bag is
`{duration: timeout}` computed at arm time, replaced wholesale by
`actionTimeoutMetricsCb()` when a callback was given, and sent via
`self.send("timeout", metrics, true)`. -/
def timeoutFireEvent (defaultMetrics : MetricsObj) (armTimeout : ℚ)
    (actionTimeoutMetricsCb : Option MetricsObj) (now : ℚ) : MetricsObj :=
  let metrics :=
    match actionTimeoutMetricsCb with
    | none => [("duration", JsValue.num armTimeout)]
    | some bag => bag
  newRelicSendEvent defaultMetrics "timeout" now metrics

/-! ## The deadline timer (`setTimeout` armed in the constructor,
`clearTimeout` in `activationFinished`) -/

/-- What can happen to an armed deadline timer: the user calls
`activationFinished()` (`clearTimeout`), or the scheduled time arrives
and the runtime attempts to fire the timer. -/
inductive AgentAction where
  | activationFinished
  | timerFire
deriving DecidableEq

/-- Deadline-timer state of one agent: whether the `setTimeout` handle
is still armed, and how many `timeout` events its handler has sent. -/
structure AgentTimerState where
  timerArmed : Bool
  timeoutEventsSent : Nat
deriving DecidableEq

/-- State right after the constructor armed the timer via
`sendMetricsOnActionTimeout`. -/
def armedAgentState : AgentTimerState :=
  { timerArmed := true, timeoutEventsSent := 0 }

/-- One step: `activationFinished()` clears the timer; the runtime
firing attempt runs the handler (which sends the `timeout` event) only
if the timer was not cleared. -/
def agentStep (s : AgentTimerState) : AgentAction → AgentTimerState
  | .activationFinished => { s with timerArmed := false }
  | .timerFire =>
      if s.timerArmed then
        { timerArmed := false, timeoutEventsSent := s.timeoutEventsSent + 1 }
      else s

/-- Run a sequence of actions against the timer state. -/
def agentRun (s : AgentTimerState) (actions : List AgentAction) : AgentTimerState :=
  actions.foldl agentStep s

/-! ## The HTTP client probe (`lib/probe/http-client.js`) -/

/-- `USER_AGENT` from `lib/queue.js`, the agent's own ingest user-agent. -/
def USER_AGENT : String := "adobe-openwhisk-newrelic/1.0"

/-- What `request.getHeader("User-Agent")` can return: `undefined`, a
string, or an array of strings. -/
inductive HeaderValue where
  | undefined
  | str (s : String)
  | arr (elems : List String)
deriving DecidableEq

/-- JavaScript truthiness of a header value: `undefined` and the empty
string are falsy, arrays (objects) are truthy. -/
def headerTruthy : HeaderValue → Bool
  | .undefined => false
  | .str s => !(s == "")
  | .arr _ => true

/-- The `ua = ua[0]` step of `ignoreRequest`: a non-empty array is
replaced by its first element. -/
def headerFirstOfArray : HeaderValue → HeaderValue
  | .arr (x :: _) => .str x
  | v => v

/-- `ignoreRequest()` from `lib/probe/http-client.js`: ignore the
request when its (possibly array-valued) `User-Agent` header strictly
equals the agent's own ingest user-agent. -/
def ignoreRequest (ua : HeaderValue) : Bool :=
  if headerTruthy ua then
    match headerFirstOfArray ua with
    | .str s => s == USER_AGENT
    | _ => false
  else false

/-- The lifecycle events whose listeners call `triggerMetrics`:
`response`→`end`, `error`, and `timeout`. -/
inductive RequestEvent where
  | responseEnd
  | errorEvent
  | timeoutEvent
deriving DecidableEq

/-- Per-request one-shot emission state of `HttpRequestMetrics`: the
`metricsTriggered` flag and the number of `metricsCallback` invocations. -/
structure RequestProbeState where
  metricsTriggered : Bool
  emittedCount : Nat
deriving DecidableEq

/-- State of a freshly constructed `HttpRequestMetrics`
(`metricsTriggered` undefined, no emission yet). -/
def initialProbeState : RequestProbeState :=
  { metricsTriggered := false, emittedCount := 0 }

/-- `triggerMetrics(extraMetrics)`: invoke the metrics callback and
latch `metricsTriggered`, unless it is already set. -/
def triggerMetrics (s : RequestProbeState) : RequestProbeState :=
  if s.metricsTriggered then s
  else { metricsTriggered := true, emittedCount := s.emittedCount + 1 }

/-- The listeners attached by `onRequest`: the response `end` handler,
the `error` handler and the `timeout` handler each end in a
`triggerMetrics` call. -/
def handleRequestEvent (s : RequestProbeState) (e : RequestEvent) : RequestProbeState :=
  match e with
  | .responseEnd => triggerMetrics s
  | .errorEvent => triggerMetrics s
  | .timeoutEvent => triggerMetrics s

/-- Run a request's lifecycle events through the attached listeners. -/
def runRequestEvents (events : List RequestEvent) : RequestProbeState :=
  events.foldl handleRequestEvent initialProbeState

/-- `getRequest()` from `lib/probe/http-client.js`: the listeners are
attached only when `ignoreRequest()` is false, so an ignored request
emits no metric record no matter which lifecycle events occur. Returns
the number of metric records emitted for the request (each of which is
what `instrumentHttpClient` hands to `newRelic.send("http", ...)`). -/
def requestEmittedCount (ua : HeaderValue) (events : List RequestEvent) : Nat :=
  if ignoreRequest ua then 0 else (runRequestEvents events).emittedCount

/-- The send queue after one instrumented request: the metrics callback
installed by `instrumentHttpClient` is the only enqueue path for probe
records — each of its invocations forwards one record through
`newRelic.send("http", record)` — so the queue receives one `"http"`
event per emission. -/
def probeQueueAfterRequest (q : SendQueueState) (d : MetricsObj) (now : ℚ)
    (record : MetricsObj) (ua : HeaderValue) (events : List RequestEvent) :
    SendQueueState :=
  (fun s => newRelicSend true d s "http" now record)^[requestEmittedCount ua events] q

/-! ## `timeUntilTimeout` (`lib/metrics.js`) -/

/-- `DEFAULT_METRIC_TIMEOUT_MS` from `lib/metrics.js`: the default
OpenWhisk action timeout. -/
def DEFAULT_METRIC_TIMEOUT_MS : Int := 60000

/-- `timeUntilTimeout()` from `lib/metrics.js`:
`(process.env.__OW_DEADLINE - Date.now()) || DEFAULT_METRIC_TIMEOUT_MS`.
With `__OW_DEADLINE` unset the subtraction yields `NaN`, which is falsy,
so `||` falls through to the default; a difference of exactly `0` is
falsy too. -/
def timeUntilTimeout (owDeadline : Option Int) (now : Int) : Int :=
  match owDeadline with
  | none => DEFAULT_METRIC_TIMEOUT_MS
  | some d => if d - now = 0 then DEFAULT_METRIC_TIMEOUT_MS else d - now

/-! ## Supporting lemmas -/

theorem probeRun_stable (events : List RequestEvent) (s : RequestProbeState)
    (h : s.metricsTriggered = true) :
    events.foldl handleRequestEvent s = s := by
  induction events with
  | nil => rfl
  | cons e rest ih =>
      have hstep : handleRequestEvent s e = s := by
        cases e <;> simp [handleRequestEvent, triggerMetrics, h]
      simp only [List.foldl_cons, hstep]
      exact ih

theorem probeRun_emitted_le (events : List RequestEvent) :
    ∀ s : RequestProbeState,
      (events.foldl handleRequestEvent s).emittedCount ≤ s.emittedCount + 1 := by
  induction events with
  | nil => intro s; simp
  | cons e rest ih =>
      intro s
      cases htr : s.metricsTriggered with
      | true =>
          have hstep : handleRequestEvent s e = s := by
            cases e <;> simp [handleRequestEvent, triggerMetrics, htr]
          simp only [List.foldl_cons, hstep]
          exact ih s
      | false =>
          have hstep : handleRequestEvent s e
              = { metricsTriggered := true, emittedCount := s.emittedCount + 1 } := by
            cases e <;> simp [handleRequestEvent, triggerMetrics, htr]
          simp only [List.foldl_cons, hstep]
          rw [probeRun_stable rest _ rfl]

theorem agentRun_no_fire_count (pre : List AgentAction) :
    ∀ s : AgentTimerState, AgentAction.timerFire ∉ pre →
      (agentRun s pre).timeoutEventsSent = s.timeoutEventsSent := by
  induction pre with
  | nil => intro s _; rfl
  | cons a rest ih =>
      intro s h
      cases a with
      | activationFinished =>
          simp only [agentRun, List.foldl_cons, agentStep]
          exact ih _ (by simp_all)
      | timerFire => exact absurd (List.mem_cons_self _ _) h

theorem agentRun_unarmed (post : List AgentAction) :
    ∀ s : AgentTimerState, s.timerArmed = false → agentRun s post = s := by
  induction post with
  | nil => intro s _; rfl
  | cons a rest ih =>
      intro s h
      have hstep : agentStep s a = s := by
        cases a <;> cases s <;> simp_all [agentStep]
      simp only [agentRun, List.foldl_cons, hstep]
      exact ih s h

theorem lookup_eq_none_of_not_mem {α : Type} (l : List (String × α)) (k : String)
    (h : k ∉ l.map Prod.fst) : List.lookup k l = none := by
  induction l with
  | nil => rfl
  | cons hd tl ih =>
      obtain ⟨k', v'⟩ := hd
      simp only [List.map_cons, List.mem_cons, not_or] at h
      have hb : (k == k') = false := beq_eq_false_iff_ne.mpr h.1
      simp [List.lookup, hb, ih h.2]

theorem lookup_jsUpsert {α : Type} (l : List (String × α)) (k k' : String) (v : α) :
    List.lookup k (jsUpsert l k' v) = if k = k' then some v else List.lookup k l := by
  induction l with
  | nil =>
      by_cases h : k = k'
      · subst h; simp [jsUpsert, List.lookup]
      · have hb : (k == k') = false := beq_eq_false_iff_ne.mpr h
        simp [jsUpsert, List.lookup, hb, h]
  | cons hd tl ih =>
      obtain ⟨a, b⟩ := hd
      by_cases ha : a = k'
      · subst ha
        by_cases hk : k = a
        · subst hk; simp [jsUpsert, List.lookup]
        · have hb : (k == a) = false := beq_eq_false_iff_ne.mpr hk
          simp [jsUpsert, List.lookup, hb, hk]
      · by_cases hk : k = a
        · subst hk
          simp [jsUpsert, ha, List.lookup]
        · have hb : (k == a) = false := beq_eq_false_iff_ne.mpr hk
          simp [jsUpsert, ha, List.lookup, hb, ih]

theorem lookup_spreadInto (updates : List (String × JsValue)) :
    ∀ (base : MetricsObj) (k : String), (updates.map Prod.fst).Nodup →
      List.lookup k (spreadInto base updates)
        = ((List.lookup k updates) <|> (List.lookup k base)) := by
  induction updates with
  | nil => intro base k _; simp [spreadInto]
  | cons hd rest ih =>
      intro base k hnd
      obtain ⟨k1, v1⟩ := hd
      simp only [List.map_cons, List.nodup_cons] at hnd
      have step : spreadInto base ((k1, v1) :: rest)
          = spreadInto (jsUpsert base k1 v1) rest := rfl
      rw [step, ih _ k hnd.2]
      by_cases hk : k = k1
      · subst hk
        rw [lookup_eq_none_of_not_mem rest k hnd.1, lookup_jsUpsert]
        simp [List.lookup]
      · have hb : (k == k1) = false := beq_eq_false_iff_ne.mpr hk
        rw [lookup_jsUpsert]
        simp [List.lookup, hb, hk]

theorem truncateString_short (s : String) (m : Nat) (h : s.length ≤ m) :
    truncateString s m = s := by
  simp only [truncateString, if_neg (by omega : ¬ m < s.length)]

theorem truncateString_long (s : String) (m : Nat) (h3 : 3 ≤ m) (h : m < s.length) :
    (truncateString s m).length = m ∧ ∃ t, truncateString s m = t ++ "..." := by
  constructor
  · have hdata : s.length = s.data.length := rfl
    simp only [truncateString, if_pos h]
    rw [String.length_append]
    have h1 : (String.mk (s.data.take (m - 3))).length = (s.data.take (m - 3)).length := rfl
    have h2 : ("..." : String).length = 3 := rfl
    rw [h1, h2, List.length_take]
    omega
  · exact ⟨String.mk (s.data.take (m - 3)), by simp only [truncateString, if_pos h]⟩

theorem newRelicSendEvent_lookup (d m : MetricsObj) (t : String) (now : ℚ) (k : String)
    (hd : (d.map Prod.fst).Nodup) (hm : (m.map Prod.fst).Nodup) :
    List.lookup k (newRelicSendEvent d t now m)
      = ((List.lookup k m) <|> ((List.lookup k d) <|>
          (List.lookup k [("eventType", JsValue.str t), ("timestamp", JsValue.num now)]))) := by
  unfold newRelicSendEvent
  rw [lookup_spreadInto m _ k hm, lookup_spreadInto d _ k hd]

/-! ## Claim theorems -/

/-- C1: a `sendQueue()` flush of a queue holding `n ≥ 1` events removes
exactly `min n 50` events from the head, ships them in one POST in
enqueue order, and reschedules another flush exactly when events
remain; a queue of exactly 50 events yields one POST and a queue of 51
yields two POSTs of 50 and 1 events. -/
theorem sendQueue_flush_spec (queue : List MetricsObj) (h : queue ≠ []) :
    (sendQueueRound queue).batch = queue.take MAX_EVENTS
    ∧ (sendQueueRound queue).batch.length = min queue.length MAX_EVENTS
    ∧ (sendQueueRound queue).batch ++ (sendQueueRound queue).remaining = queue
    ∧ ((sendQueueRound queue).rescheduled = true ↔ MAX_EVENTS < queue.length)
    ∧ (queue.length = 50 → flushPosts queue = [queue])
    ∧ (queue.length = 51 →
        (flushPosts queue).map List.length = [50, 1]
        ∧ (flushPosts queue).join = queue) := by
  have hne : queue.isEmpty = false := by
    cases queue with
    | nil => exact absurd rfl h
    | cons x tl => rfl
  refine ⟨?_, ?_, ?_, ?_, ?_, ?_⟩
  · simp [sendQueueRound, hne]
  · simp [sendQueueRound, hne, List.length_take, Nat.min_comm]
  · simp [sendQueueRound, hne, List.take_append_drop]
  · simp only [sendQueueRound, hne, Bool.false_eq_true, if_false]
    simp [List.isEmpty_iff, MAX_EVENTS]
  · intro h50
    rw [flushPosts]
    rw [dif_neg (by simp [hne])]
    have hME : MAX_EVENTS = 50 := rfl
    have hd : queue.drop MAX_EVENTS = [] :=
      List.drop_eq_nil_of_le (by omega : queue.length ≤ MAX_EVENTS)
    have ht : queue.take MAX_EVENTS = queue :=
      List.take_of_length_le (by omega : queue.length ≤ MAX_EVENTS)
    simp [sendQueueRound, hne, hd, ht]
  · intro h51
    have hd1 : (queue.drop MAX_EVENTS).length = 1 := by
      simp [List.length_drop, MAX_EVENTS, h51]
    have hne2 : (queue.drop MAX_EVENTS).isEmpty = false := by
      cases hq : queue.drop MAX_EVENTS with
      | nil => rw [hq] at hd1; simp at hd1
      | cons x tl => rfl
    have hME : MAX_EVENTS = 50 := rfl
    have hd2 : (queue.drop MAX_EVENTS).drop MAX_EVENTS = [] :=
      List.drop_eq_nil_of_le (by omega : (queue.drop MAX_EVENTS).length ≤ MAX_EVENTS)
    have ht2 : (queue.drop MAX_EVENTS).take MAX_EVENTS = queue.drop MAX_EVENTS :=
      List.take_of_length_le (by omega : (queue.drop MAX_EVENTS).length ≤ MAX_EVENTS)
    have hstep2 : flushPosts (queue.drop MAX_EVENTS) = [queue.drop MAX_EVENTS] := by
      rw [flushPosts]
      rw [dif_neg (by simp [hne2])]
      simp [sendQueueRound, hne2, hd2, ht2]
    have hstep1 : flushPosts queue = queue.take MAX_EVENTS :: [queue.drop MAX_EVENTS] := by
      rw [flushPosts]
      rw [dif_neg (by simp [hne])]
      simp only [sendQueueRound, hne, Bool.false_eq_true, if_false]
      rw [if_pos (by simp [hne2]), hstep2]
    constructor
    · rw [hstep1]
      simp [List.length_take, List.length_drop, MAX_EVENTS, h51]
    · rw [hstep1]
      simp [List.join, List.take_append_drop]

/-- C1 witness: a queue of 51 events yields two POSTs of 50 and 1
events. -/
theorem sendQueue_flush_spec_witness :
    (flushPosts (List.replicate 51 ([] : MetricsObj))).map List.length = [50, 1] :=
  ((sendQueue_flush_spec (List.replicate 51 []) (by simp)).2.2.2.2.2 (by simp)).1

/-- C2: `NewRelic.send(type, event)` enqueues exactly the merge of
`{eventType: type, timestamp: now}`, then `defaultMetrics`, then the
caller event, with later layers winning on key conflicts; in
particular, when the deadline timer fires and the
`actionTimeoutMetricsCb` bag contains an `eventType` key, that value
overrides the default `"timeout"`. -/
theorem newRelic_send_merge_spec :
    (∀ (d m : MetricsObj) (t : String) (now : ℚ) (k : String),
        (d.map Prod.fst).Nodup → (m.map Prod.fst).Nodup →
        List.lookup k (newRelicSendEvent d t now m)
          = ((List.lookup k m) <|> ((List.lookup k d) <|>
              (List.lookup k [("eventType", JsValue.str t), ("timestamp", JsValue.num now)]))))
    ∧ (∀ (d : MetricsObj) (q : SendQueueState) (t : String) (now : ℚ) (m : MetricsObj),
        (newRelicSend true d q t now m).queue = q.queue ++ [newRelicSendEvent d t now m])
    ∧ (∀ (d bag : MetricsObj) (tmo now : ℚ) (v : JsValue),
        (d.map Prod.fst).Nodup → (bag.map Prod.fst).Nodup →
        List.lookup "eventType" bag = some v →
        List.lookup "eventType" (timeoutFireEvent d tmo (some bag) now) = some v) := by
  refine ⟨?_, ?_, ?_⟩
  · intro d m t now k hd hm
    exact newRelicSendEvent_lookup d m t now k hd hm
  · intro d q t now m
    rfl
  · intro d bag tmo now v hd hbag hev
    show List.lookup "eventType" (newRelicSendEvent d "timeout" now bag) = some v
    rw [newRelicSendEvent_lookup d bag "timeout" now "eventType" hd hbag, hev]
    rfl

/-- C2 witness: a timeout callback bag `{eventType: "custom"}` makes the
deadline event carry `eventType = "custom"` instead of `"timeout"`. -/
theorem newRelic_send_merge_witness :
    List.lookup "eventType"
        (timeoutFireEvent [("x", JsValue.num 1)] 5
          (some [("eventType", JsValue.str "custom")]) 7)
      = some (JsValue.str "custom") :=
  newRelic_send_merge_spec.2.2 [("x", JsValue.num 1)]
    [("eventType", JsValue.str "custom")] 5 7 (JsValue.str "custom")
    (by simp) (by simp) rfl

/-- C3: the probe emits no metric record and enqueues no event for a
request whose `User-Agent` header equals the agent's own ingest
user-agent, whether the header is that string or an array headed by
it, regardless of the lifecycle events the request sees: the emission
count is zero and the send queue is left exactly as it was. -/
theorem probe_ignores_own_user_agent (events : List RequestEvent) (tl : List String) :
    requestEmittedCount (HeaderValue.str USER_AGENT) events = 0
    ∧ requestEmittedCount (HeaderValue.arr (USER_AGENT :: tl)) events = 0
    ∧ (∀ (q : SendQueueState) (d record : MetricsObj) (now : ℚ),
        probeQueueAfterRequest q d now record (HeaderValue.str USER_AGENT) events = q)
    ∧ (∀ (q : SendQueueState) (d record : MetricsObj) (now : ℚ),
        probeQueueAfterRequest q d now record (HeaderValue.arr (USER_AGENT :: tl))
          events = q) := by
  have h1 : ignoreRequest (HeaderValue.str USER_AGENT) = true := by decide
  have h2 : ignoreRequest (HeaderValue.arr (USER_AGENT :: tl)) = true := by
    simp [ignoreRequest, headerTruthy, headerFirstOfArray]
  refine ⟨by simp [requestEmittedCount, h1], by simp [requestEmittedCount, h2], ?_, ?_⟩
  · intro q d record now
    simp [probeQueueAfterRequest, requestEmittedCount, h1]
  · intro q d record now
    simp [probeQueueAfterRequest, requestEmittedCount, h2]

/-- C4: `triggerMetrics` invokes the metrics callback at most once per
request, regardless of which of the response-end, error and timeout
events occur and in which order or combination. -/
theorem triggerMetrics_at_most_once (events : List RequestEvent) :
    (runRequestEvents events).emittedCount ≤ 1 := by
  have := probeRun_emitted_le events initialProbeState
  simpa [runRequestEvents, initialProbeState] using this

/-- C5: if `activationFinished()` runs before the armed deadline timer
fires, the deadline-scheduled `timeout` event is never emitted
afterwards, whatever happens next. -/
theorem activationFinished_prevents_timeout (pre post : List AgentAction)
    (h : AgentAction.timerFire ∉ pre) :
    (agentRun armedAgentState
        (pre ++ AgentAction.activationFinished :: post)).timeoutEventsSent = 0 := by
  have hmid : (agentRun armedAgentState pre).timeoutEventsSent = 0 :=
    agentRun_no_fire_count pre armedAgentState h
  have hsplit : agentRun armedAgentState (pre ++ AgentAction.activationFinished :: post)
      = agentRun (agentStep (agentRun armedAgentState pre) .activationFinished) post := by
    simp [agentRun, List.foldl_append]
  rw [hsplit]
  have hcleared : agentStep (agentRun armedAgentState pre) .activationFinished
      = { timerArmed := false,
          timeoutEventsSent := (agentRun armedAgentState pre).timeoutEventsSent } := rfl
  rw [hcleared, agentRun_unarmed post _ rfl, hmid]

/-- C5 witness: clearing the timer and then letting the scheduled fire
attempt happen emits no timeout event. -/
theorem activationFinished_prevents_timeout_witness :
    (agentRun armedAgentState
        ([] ++ AgentAction.activationFinished :: [AgentAction.timerFire])).timeoutEventsSent = 0 :=
  activationFinished_prevents_timeout [] [AgentAction.timerFire] (by simp)

/-- C6 counterexample: a second `start` while the queue is running does
replace the endpoint configured by the first call, contrary to the
claim. -/
theorem sendQueue_start_replaces_endpoint_cex :
    (sendQueueStart (sendQueueStart initialSendQueueState "url1" "key1" none none)
        "url2" "key2" none none).url
      ≠ (sendQueueStart initialSendQueueState "url1" "key1" none none).url
    ∧ (sendQueueStart (sendQueueStart initialSendQueueState "url1" "key1" none none)
        "url2" "key2" none none).url = some "url2"
    ∧ (sendQueueStart (sendQueueStart initialSendQueueState "url1" "key1" none none)
        "url2" "key2" none none).apiKey = some "key2"
    ∧ (sendQueueStart initialSendQueueState "url1" "key1" none none).url = some "url1" := by
  refine ⟨by decide, rfl, rfl, rfl⟩

/-- C6 amended: a second `start` while the queue is running replaces
the endpoint (`url` and `apiKey` are overwritten) but does not restart
the periodic flush timer, and leaves the queue untouched. -/
theorem sendQueue_start_reentry_spec (s : SendQueueState) (url2 key2 : String)
    (iv env : Option Nat) (t : Nat) (h : s.sendTimer = some t) :
    (sendQueueStart s url2 key2 iv env).url = some url2
    ∧ (sendQueueStart s url2 key2 iv env).apiKey = some key2
    ∧ (sendQueueStart s url2 key2 iv env).sendTimer = s.sendTimer
    ∧ (sendQueueStart s url2 key2 iv env).queue = s.queue := by
  simp [sendQueueStart, h]

/-- C6 amended witness: re-entry on a running queue keeps the timer and
queue and overwrites the endpoint. -/
theorem sendQueue_start_reentry_witness :
    (sendQueueStart { initialSendQueueState with sendTimer := some 10000 }
        "u2" "k2" none none).url = some "u2"
    ∧ (sendQueueStart { initialSendQueueState with sendTimer := some 10000 }
        "u2" "k2" none none).apiKey = some "k2"
    ∧ (sendQueueStart { initialSendQueueState with sendTimer := some 10000 }
        "u2" "k2" none none).sendTimer
      = ({ initialSendQueueState with sendTimer := some 10000 } : SendQueueState).sendTimer
    ∧ (sendQueueStart { initialSendQueueState with sendTimer := some 10000 }
        "u2" "k2" none none).queue
      = ({ initialSendQueueState with sendTimer := some 10000 } : SendQueueState).queue :=
  sendQueue_start_reentry_spec _ "u2" "k2" none none 10000 rfl

/-- C7 counterexample: with no timer running, `stop()` is a no-op, so a
nonempty queue survives it, contrary to the claim that the queue is
empty after every `stop()`. -/
theorem sendQueue_stop_noop_cex :
    (sendQueueStop { url := none, apiKey := none, sendTimer := none,
                     queue := [[("a", JsValue.num 1)]] }).1.queue ≠ []
    ∧ (sendQueueStop { url := none, apiKey := none, sendTimer := none,
                       queue := [[("a", JsValue.num 1)]] }).1.queue
      = [[("a", JsValue.num 1)]] := by
  refine ⟨?_, rfl⟩
  intro hc
  simp [sendQueueStop] at hc

/-- C7 amended: when the periodic timer is running, `stop()` cancels
the tick and empties the queue, logging the count of dropped events
when there were any; when no timer is running, `stop()` leaves the
state unchanged and logs nothing. -/
theorem sendQueue_stop_spec :
    (∀ (s : SendQueueState) (t : Nat), s.sendTimer = some t →
        (sendQueueStop s).1.sendTimer = none
        ∧ (sendQueueStop s).1.queue = []
        ∧ (sendQueueStop s).2
          = (if 0 < s.queue.length then some s.queue.length else none)
        ∧ (sendQueueStop s).1.url = s.url
        ∧ (sendQueueStop s).1.apiKey = s.apiKey)
    ∧ (∀ s : SendQueueState, s.sendTimer = none → sendQueueStop s = (s, none)) := by
  constructor
  · intro s t h
    simp [sendQueueStop, h]
  · intro s h
    simp [sendQueueStop, h]

/-- C7 amended witness: stopping a running queue with one queued event
cancels the timer, empties the queue and logs the drop count 1;
stopping an idle queue changes nothing. -/
theorem sendQueue_stop_spec_witness :
    (sendQueueStop { url := some "u", apiKey := some "k", sendTimer := some 10000,
                     queue := [[("a", JsValue.num 1)]] }).1.queue = []
    ∧ (sendQueueStop { url := some "u", apiKey := some "k", sendTimer := some 10000,
                       queue := [[("a", JsValue.num 1)]] }).2 = some 1
    ∧ sendQueueStop initialSendQueueState = (initialSendQueueState, none) :=
  ⟨(sendQueue_stop_spec.1 _ 10000 rfl).2.1,
    by
      have := (sendQueue_stop_spec.1 { url := some "u", apiKey := some "k",
                                       sendTimer := some 10000,
                                       queue := [[("a", JsValue.num 1)]] } 10000 rfl).2.2.1
      simpa using this,
    sendQueue_stop_spec.2 initialSendQueueState rfl⟩

/-- C8: `flatten` maps each scalar value of the input object as
follows: numbers pass through unchanged; a string at most the limit
(100 characters, or 1500 when the bare key is `message`,
`errorMessage` or `error`) passes through unchanged, a longer string
is truncated to exactly the limit and ends with `"..."`; booleans map
to `1`/`0`; `null` and `undefined` values are dropped with no key in
the output. -/
theorem flatten_scalar_spec (key parentKey : String)
    (rest : List (String × JsValue)) (result : List (String × FlatValue)) :
    (∀ q : ℚ, flattenInto ((key, JsValue.num q) :: rest) parentKey result
      = flattenInto rest parentKey
          (jsUpsert result (parentKey ++ key) (FlatValue.num q)))
    ∧ (∀ s : String, flattenInto ((key, JsValue.str s) :: rest) parentKey result
      = flattenInto rest parentKey
          (jsUpsert result (parentKey ++ key)
            (FlatValue.str (truncateString s (limitForKey key)))))
    ∧ limitForKey key = (if key ∈ ERROR_METRIC_NAMES then 1500 else 100)
    ∧ (∀ s : String, s.length ≤ limitForKey key →
        truncateString s (limitForKey key) = s)
    ∧ (∀ s : String, limitForKey key < s.length →
        (truncateString s (limitForKey key)).length = limitForKey key
        ∧ ∃ t, truncateString s (limitForKey key) = t ++ "...")
    ∧ (∀ b : Bool, flattenInto ((key, JsValue.bool b) :: rest) parentKey result
      = flattenInto rest parentKey
          (jsUpsert result (parentKey ++ key)
            (FlatValue.num (if b then 1 else 0))))
    ∧ flattenInto ((key, JsValue.null) :: rest) parentKey result
      = flattenInto rest parentKey result
    ∧ flattenInto ((key, JsValue.undefined) :: rest) parentKey result
      = flattenInto rest parentKey result := by
  have h3 : 3 ≤ limitForKey key := by
    unfold limitForKey DEFAULT_ERROR_METRIC_MAX_STRING_LENGTH DEFAULT_MAX_STRING_LENGTH
    split <;> omega
  refine ⟨?_, ?_, rfl, ?_, ?_, ?_, ?_, ?_⟩
  · intro q; simp only [flattenInto]
  · intro s; simp only [flattenInto]
  · intro s hs; exact truncateString_short s _ hs
  · intro s hs; exact truncateString_long s _ h3 hs
  · intro b; simp only [flattenInto]
  · simp only [flattenInto]
  · simp only [flattenInto]

/-- C8 witness: a 101-character string under a non-error key is
truncated to exactly 100 characters. -/
theorem flatten_scalar_spec_witness :
    flattenInto [("k", JsValue.str (String.mk (List.replicate 101 'a')))] "" []
      = flattenInto [] ""
          (jsUpsert [] ("" ++ "k")
            (FlatValue.str (truncateString (String.mk (List.replicate 101 'a'))
              (limitForKey "k"))))
    ∧ (truncateString (String.mk (List.replicate 101 'a')) (limitForKey "k")).length
      = limitForKey "k" :=
  ⟨(flatten_scalar_spec "k" "" [] []).2.1 (String.mk (List.replicate 101 'a')),
    ((flatten_scalar_spec "k" "" [] []).2.2.2.2.1 (String.mk (List.replicate 101 'a'))
      (by decide)).1⟩

/-- C9: `flatten` is not total on the stated value grammar: an empty
sequence (and likewise an empty set) vacuously satisfies
`every(Number.isInteger)`, so `toMetricsObject` calls `reduce` with no
initial value on an empty array and throws instead of returning. -/
theorem flatten_empty_sequence_error :
    flatten [("a", JsValue.arr [])] ""
      = Except.error "Reduce of empty array with no initial value"
    ∧ flatten [("a", JsValue.set [])] ""
      = Except.error "Reduce of empty array with no initial value" := by
  constructor <;>
    simp [flatten, flattenInto, toMetricsObject, arrayToMetricsObject, reduceSum,
      isIntegerValue]

/-- C10: with `__OW_DEADLINE` unset, or with `deadline - now()` exactly
zero, `timeUntilTimeout()` returns the 60000 ms default (the default
OpenWhisk action timeout) rather than `NaN`, zero, a negative number or
an error, so the deadline timer is still armed with a positive delay. -/
theorem timeUntilTimeout_default_spec :
    (∀ now : Int, timeUntilTimeout none now = 60000)
    ∧ (∀ d now : Int, d - now = 0 → timeUntilTimeout (some d) now = 60000)
    ∧ (∀ now : Int, 0 < timeUntilTimeout none now)
    ∧ (∀ d now : Int, d - now = 0 → 0 < timeUntilTimeout (some d) now) := by
  refine ⟨fun now => rfl, ?_, ?_, ?_⟩
  · intro d now h
    simp [timeUntilTimeout, h, DEFAULT_METRIC_TIMEOUT_MS]
  · intro now
    simp [timeUntilTimeout, DEFAULT_METRIC_TIMEOUT_MS]
  · intro d now h
    simp [timeUntilTimeout, h, DEFAULT_METRIC_TIMEOUT_MS]

/-- C10 witness: a deadline equal to the current time and an unset
deadline both yield the 60000 ms default. -/
theorem timeUntilTimeout_default_witness :
    timeUntilTimeout (some 1234) 1234 = 60000
    ∧ timeUntilTimeout none 0 = 60000 :=
  ⟨timeUntilTimeout_default_spec.2.1 1234 1234 (by decide),
    timeUntilTimeout_default_spec.1 0⟩

end Openwhisk
